import Mathlib

/-!
Verification of the wasix libc socket compatibility layer.

The repository sources verified here are
`src/lib/libc/wasi/libc-bottom-half/cloudlibc/src/libc/sys/socket/bind.c`
(the POSIX-shaped `bind` entry point) and
`src/lib/libc/wasi/libc-top-half/musl/src/internal/fork_impl.h`
(the declaration-ordered lock registry).  The address codec
(`sockaddr_to_wasi` and the reverse `encode`), the error-taxonomy mapper
and the fork lock acquire/release loops are parts of the repository whose
code is not in the visible fragment; they are modelled from the spec, as
marked in their doc comments.
-/

/-! ## Error codes

In wasi-libc (and this wasix fork of it) the POSIX errno constants are
defined numerically equal to the WASI host error codes, which is why
`bind.c` assigns the host error directly to `errno`.  The constants below
carry the WASI numbering. -/

def EINVAL : Nat := 28

def EAFNOSUPPORT : Nat := 5

def EALREADY : Nat := 7

/-! ## Typed internal addresses

The spec's Typed Internal Address: a tagged union over IPv4
(4-byte address + 2-byte port) and IPv6 (16-byte address + 2-byte port +
4-byte scope id).  Each byte is a `Nat` that a valid address keeps
below 256. -/

structure Ip4Bytes where
  b0 : Nat
  b1 : Nat
  b2 : Nat
  b3 : Nat
deriving DecidableEq

structure Ip6Bytes where
  b0 : Nat
  b1 : Nat
  b2 : Nat
  b3 : Nat
  b4 : Nat
  b5 : Nat
  b6 : Nat
  b7 : Nat
  b8 : Nat
  b9 : Nat
  b10 : Nat
  b11 : Nat
  b12 : Nat
  b13 : Nat
  b14 : Nat
  b15 : Nat
deriving DecidableEq

inductive TypedAddr where
  | ip4 (addr : Ip4Bytes) (port : Nat)
  | ip6 (addr : Ip6Bytes) (port : Nat) (scope : Nat)
deriving DecidableEq

def Ip4Bytes.wf (a : Ip4Bytes) : Prop :=
  a.b0 < 256 ∧ a.b1 < 256 ∧ a.b2 < 256 ∧ a.b3 < 256

def Ip6Bytes.wf (a : Ip6Bytes) : Prop :=
  a.b0 < 256 ∧ a.b1 < 256 ∧ a.b2 < 256 ∧ a.b3 < 256 ∧
  a.b4 < 256 ∧ a.b5 < 256 ∧ a.b6 < 256 ∧ a.b7 < 256 ∧
  a.b8 < 256 ∧ a.b9 < 256 ∧ a.b10 < 256 ∧ a.b11 < 256 ∧
  a.b12 < 256 ∧ a.b13 < 256 ∧ a.b14 < 256 ∧ a.b15 < 256

/-- A valid typed address: all stored bytes are bytes, the port fits in
16 bits and the IPv6 scope id fits in 32 bits. -/
def TypedAddr.valid : TypedAddr → Prop
  | .ip4 a p => a.wf ∧ p < 65536
  | .ip6 a p s => a.wf ∧ p < 65536 ∧ s < 4294967296

instance : DecidablePred TypedAddr.valid := by
  intro x
  cases x <;> unfold TypedAddr.valid Ip4Bytes.wf Ip6Bytes.wf <;> infer_instance

/-! ## Generic address buffers and the address codec

A Generic Address Buffer is a caller-supplied byte sequence whose length
is the caller's declared length.  Per the spec's external-interface
section the layout is a fixed-width (2-byte, little-endian) family tag
followed by the family payload: IPv4 = 4 address bytes + 2 port bytes
(total 8), IPv6 = 16 address bytes + 2 port bytes + 4 scope-id bytes
(total 24). -/

def AF_INET : Nat := 1

def AF_INET6 : Nat := 2

def AF_UNIX : Nat := 3

/-- Byte `i` of a buffer (`0` past the end, which the codec's length
checks make unreachable on every path that reads). -/
def byteAt (buf : List Nat) (i : Nat) : Nat :=
  (buf.drop i).headD 0

/-- The family tag read from the first two bytes of the buffer. -/
def familyTag (buf : List Nat) : Nat :=
  byteAt buf 0 + 256 * byteAt buf 1

/-- The buffer size required by a recognized family tag. -/
def ip4SockaddrSize : Nat := 8

def ip6SockaddrSize : Nat := 24

/-- Modelled from the spec: `sockaddr_to_wasi` (the Address Codec's
`decode`, declared in `common/net.h` and called by `bind.c`; its body is
not in the visible fragment).  It validates the declared length against
the minimum header size, reads the family tag, and requires the declared
length to exactly match the tag's required size.  Any mismatch (too
short, unknown family, length/family mismatch) fails with `EINVAL`; the
recognized-but-unsupported family `AF_UNIX` fails with the distinct
`EAFNOSUPPORT`.  Success yields the Typed Internal Address, with the
port and scope decoded little-endian. -/
def sockaddr_to_wasi (buf : List Nat) : Except Nat TypedAddr :=
  if buf.length < 2 then .error EINVAL
  else if familyTag buf = AF_INET then
    if buf.length = ip4SockaddrSize then
      .ok (.ip4 ⟨byteAt buf 2, byteAt buf 3, byteAt buf 4, byteAt buf 5⟩
        (byteAt buf 6 + 256 * byteAt buf 7))
    else .error EINVAL
  else if familyTag buf = AF_INET6 then
    if buf.length = ip6SockaddrSize then
      .ok (.ip6
        ⟨byteAt buf 2, byteAt buf 3, byteAt buf 4, byteAt buf 5,
         byteAt buf 6, byteAt buf 7, byteAt buf 8, byteAt buf 9,
         byteAt buf 10, byteAt buf 11, byteAt buf 12, byteAt buf 13,
         byteAt buf 14, byteAt buf 15, byteAt buf 16, byteAt buf 17⟩
        (byteAt buf 18 + 256 * byteAt buf 19)
        (byteAt buf 20 + 256 * byteAt buf 21 + 65536 * byteAt buf 22 +
          16777216 * byteAt buf 23))
    else .error EINVAL
  else if familyTag buf = AF_UNIX then .error EAFNOSUPPORT
  else .error EINVAL

/-- The full (untruncated) encoding of a typed address: family tag then
payload, ports and scope little-endian. -/
def encodeFull : TypedAddr → List Nat
  | .ip4 a p =>
      [AF_INET % 256, AF_INET / 256, a.b0, a.b1, a.b2, a.b3,
       p % 256, p / 256 % 256]
  | .ip6 a p s =>
      [AF_INET6 % 256, AF_INET6 / 256,
       a.b0, a.b1, a.b2, a.b3, a.b4, a.b5, a.b6, a.b7,
       a.b8, a.b9, a.b10, a.b11, a.b12, a.b13, a.b14, a.b15,
       p % 256, p / 256 % 256,
       s % 256, s / 256 % 256, s / 65536 % 256, s / 16777216 % 256]

/-- The encoded size a typed address requires. -/
def requiredSize (x : TypedAddr) : Nat :=
  (encodeFull x).length

structure EncodeResult where
  written : List Nat
  reported : Nat
deriving DecidableEq

/-- Modelled from the spec: the Address Codec's `encode` (reverse path,
used by accept/getsockname/getpeername; not in the visible fragment).
It writes at most `capacity` bytes of the encoding into the caller
buffer — truncating to `capacity` when the caller buffer is too small,
which is not an error — and reports the full untruncated required
size. -/
def encode (x : TypedAddr) (capacity : Nat) : Except Nat EncodeResult :=
  .ok ⟨(encodeFull x).take capacity, requiredSize x⟩

/-! ## The `bind` entry point

Shallow embedding of `bind.c`.  The host operation `__wasi_sock_bind`
is the external host boundary, taken as a parameter `host` mapping the
socket handle and the typed address to a host error code (`0` =
success).  The result records the return value, the final value of the
process-wide `errno` slot (threaded from `errno0`), and whether the
host operation was invoked. -/

structure BindResult where
  ret : Int
  errno : Nat
  hostCalled : Bool
deriving DecidableEq

namespace Wasix

def bind (host : Nat → TypedAddr → Nat) (socket : Nat) (addr : List Nat)
    (errno0 : Nat) : BindResult :=
  match sockaddr_to_wasi addr with
  | .error e => { ret := -1, errno := e, hostCalled := false }
  | .ok peer_addr =>
    let error := host socket peer_addr
    if error ≠ 0 then { ret := -1, errno := error, hostCalled := true }
    else { ret := 0, errno := errno0, hostCalled := true }

end Wasix

/-! ## The Error Taxonomy Mapper

Modelled from the spec: the closed Host Error Code enumeration is the
WASI error-code enumeration of `wasi/api.h` (codes 1..76; code 0 is
success and is not an error).  In wasi-libc every errno constant of
`errno.h` is defined numerically equal to the WASI code of the same
name, so `to_errno` maps each host code to the errno constant of the
same name; this is exactly why `bind.c` can assign the host error
directly to `errno`. -/

inductive HostErrno where
  | toobig | acces | addrinuse | addrnotavail | afnosupport | again
  | already | badf | badmsg | busy | canceled | child | connaborted
  | connrefused | connreset | deadlk | destaddrreq | dom | dquot | exist
  | fault | fbig | hostunreach | idrm | ilseq | inprogress | intr
  | inval | ioerr | isconn | isdir | loop | mfile | mlink | msgsize
  | multihop | nametoolong | netdown | netreset | netunreach | nfile
  | nobufs | nodev | noent | noexec | nolck | nolink | nomem | nomsg
  | noprotoopt | nospc | nosys | notconn | notdir | notempty
  | notrecoverable | notsock | notsup | notty | nxioerr | overflow
  | ownerdead | perm | pipe | proto | protonosupport | prototype
  | range | rofs | spipe | srch | stale | timedout | txtbsy | xdev
  | notcapable
deriving DecidableEq, Fintype

/-- The standard errno enumeration: the numeric values of the errno
constants of wasi-libc's `errno.h` (E2BIG = 1 through ENOTCAPABLE = 76;
0 is "no error" and is not a member). -/
def standardErrnos : List Nat :=
  [1, 2, 3, 4, 5, 6, 7, 8, 9, 10, 11, 12, 13, 14, 15, 16, 17, 18, 19,
   20, 21, 22, 23, 24, 25, 26, 27, 28, 29, 30, 31, 32, 33, 34, 35, 36,
   37, 38, 39, 40, 41, 42, 43, 44, 45, 46, 47, 48, 49, 50, 51, 52, 53,
   54, 55, 56, 57, 58, 59, 60, 61, 62, 63, 64, 65, 66, 67, 68, 69, 70,
   71, 72, 73, 74, 75, 76]

/-- Modelled from the spec: `to_errno`, the Error Taxonomy Mapper's
host-to-errno direction (not in the visible fragment).  Each host code
maps to the errno constant of the same name, with the wasi-libc
numbering; there is no default arm. -/
def to_errno : HostErrno → Nat
  | .toobig => 1
  | .acces => 2
  | .addrinuse => 3
  | .addrnotavail => 4
  | .afnosupport => 5
  | .again => 6
  | .already => 7
  | .badf => 8
  | .badmsg => 9
  | .busy => 10
  | .canceled => 11
  | .child => 12
  | .connaborted => 13
  | .connrefused => 14
  | .connreset => 15
  | .deadlk => 16
  | .destaddrreq => 17
  | .dom => 18
  | .dquot => 19
  | .exist => 20
  | .fault => 21
  | .fbig => 22
  | .hostunreach => 23
  | .idrm => 24
  | .ilseq => 25
  | .inprogress => 26
  | .intr => 27
  | .inval => 28
  | .ioerr => 29
  | .isconn => 30
  | .isdir => 31
  | .loop => 32
  | .mfile => 33
  | .mlink => 34
  | .msgsize => 35
  | .multihop => 36
  | .nametoolong => 37
  | .netdown => 38
  | .netreset => 39
  | .netunreach => 40
  | .nfile => 41
  | .nobufs => 42
  | .nodev => 43
  | .noent => 44
  | .noexec => 45
  | .nolck => 46
  | .nolink => 47
  | .nomem => 48
  | .nomsg => 49
  | .noprotoopt => 50
  | .nospc => 51
  | .nosys => 52
  | .notconn => 53
  | .notdir => 54
  | .notempty => 55
  | .notrecoverable => 56
  | .notsock => 57
  | .notsup => 58
  | .notty => 59
  | .nxioerr => 60
  | .overflow => 61
  | .ownerdead => 62
  | .perm => 63
  | .pipe => 64
  | .proto => 65
  | .protonosupport => 66
  | .prototype => 67
  | .range => 68
  | .rofs => 69
  | .spipe => 70
  | .srch => 71
  | .stale => 72
  | .timedout => 73
  | .txtbsy => 74
  | .xdev => 75
  | .notcapable => 76

/-! ## The lock registry

From `fork_impl.h`: the fixed, statically known ordered table of lock
pointers, in declaration order (the `__wasilibc_unmodified_upstream`
entries are compiled out in this repository and are excluded). -/

inductive LockName where
  | at_quick_exit_lockptr
  | atexit_lockptr
  | locale_lockptr
  | random_lockptr
  | sem_open_lockptr
  | stdio_ofl_lockptr
  | syslog_lockptr
  | timezone_lockptr
  | vmlock_lockptr
deriving DecidableEq

/-- The registry, in the declaration order of `fork_impl.h`. -/
def lockRegistry : List LockName :=
  [.at_quick_exit_lockptr, .atexit_lockptr, .locale_lockptr,
   .random_lockptr, .sem_open_lockptr, .stdio_ofl_lockptr,
   .syslog_lockptr, .timezone_lockptr, .vmlock_lockptr]

inductive LockEvent where
  | acquire (l : LockName)
  | release (l : LockName)
deriving DecidableEq

/-- The lock a lock event touches. -/
def LockEvent.lock : LockEvent → LockName
  | .acquire l => l
  | .release l => l

/-- The set of locks currently held, most recently acquired first. -/
structure LockState where
  held : List LockName
deriving DecidableEq

def acquireLock (s : LockState) (l : LockName) : LockState :=
  ⟨l :: s.held⟩

def releaseLock (s : LockState) (l : LockName) : LockState :=
  ⟨s.held.erase l⟩

/-- Modelled from the spec: `acquire_all` (the fork-side loop is not in
the visible fragment) iterates the fixed registry in forward order,
acquiring each lock; it returns the final state and the event trace. -/
def acquire_all (s : LockState) : LockState × List LockEvent :=
  lockRegistry.foldl
    (fun acc l => (acquireLock acc.1 l, acc.2 ++ [LockEvent.acquire l]))
    (s, [])

/-- Modelled from the spec: `release_all` iterates the fixed registry in
reverse order, releasing each lock; it returns the final state and the
event trace. -/
def release_all (s : LockState) : LockState × List LockEvent :=
  lockRegistry.reverse.foldl
    (fun acc l => (releaseLock acc.1 l, acc.2 ++ [LockEvent.release l]))
    (s, [])

/-! ## Helper lemmas -/

/-- Every error the address codec can produce is `EINVAL` or
`EAFNOSUPPORT`. -/
theorem sockaddr_to_wasi_error_cases (buf : List Nat) (e : Nat)
    (h : sockaddr_to_wasi buf = .error e) :
    e = EINVAL ∨ e = EAFNOSUPPORT := by
  unfold sockaddr_to_wasi at h
  split_ifs at h
  all_goals
    first
      | (injection h with h2; exact Or.inl h2.symm)
      | (injection h with h2; exact Or.inr h2.symm)

/-! ## Claims about `bind` -/

/-- C2: whenever `sockaddr_to_wasi` returns a non-zero error, `bind`
publishes that error to the process-wide `errno` slot and returns the
sentinel `-1` without ever invoking the host operation
`__wasi_sock_bind`. -/
theorem bind_decode_error_no_host_call (host : Nat → TypedAddr → Nat)
    (socket : Nat) (addr : List Nat) (errno0 e : Nat)
    (h : sockaddr_to_wasi addr = .error e) :
    Wasix.bind host socket addr errno0 = ⟨-1, e, false⟩ := by
  unfold Wasix.bind
  rw [h]

theorem bind_decode_error_no_host_call_witness :
    Wasix.bind (fun _ _ => 0) 3 [] 7 = ⟨-1, EINVAL, false⟩ :=
  bind_decode_error_no_host_call (fun _ _ => 0) 3 [] 7 EINVAL rfl

/-- C4: when decoding succeeds and the host operation reports a
non-zero error, the value published in `errno` is exactly the
host-reported code, passed through unchanged, and `bind` returns the
sentinel. -/
theorem bind_host_error_passthrough (host : Nat → TypedAddr → Nat)
    (socket : Nat) (addr : List Nat) (errno0 : Nat) (x : TypedAddr)
    (hok : sockaddr_to_wasi addr = .ok x) (he : host socket x ≠ 0) :
    (Wasix.bind host socket addr errno0).errno = host socket x ∧
    (Wasix.bind host socket addr errno0).ret = -1 := by
  unfold Wasix.bind
  rw [hok]
  simp [he]

theorem bind_host_error_passthrough_witness :
    (Wasix.bind (fun _ _ => EALREADY) 3 [1, 0, 127, 0, 0, 1, 80, 0] 0).errno
      = EALREADY ∧
    (Wasix.bind (fun _ _ => EALREADY) 3 [1, 0, 127, 0, 0, 1, 80, 0] 0).ret
      = -1 :=
  bind_host_error_passthrough (fun _ _ => EALREADY) 3
    [1, 0, 127, 0, 0, 1, 80, 0] 0 (.ip4 ⟨127, 0, 0, 1⟩ 80)
    rfl (by decide)

/-- C1 (counterexample): with a host for which the handle is already
BOUND (it reports the "already" state error `EALREADY` on every bind
request) and a malformed address buffer in the same call, `bind` fails
with the Address Codec error `EINVAL`, not the host-reported state
error, and the host operation is never even invoked — so the claim
that the host state error always wins is false on this code, which
decodes the address before calling the host. -/
theorem bind_bound_malformed_counterexample :
    Wasix.bind (fun _ _ => EALREADY) 3 [] 0 = ⟨-1, EINVAL, false⟩ ∧
    EINVAL ≠ EALREADY := by
  decide

/-- C1 (amended): for a call on an already-BOUND handle whose address
buffer decodes successfully, `bind` fails with the host-reported state
error, passed through unchanged, and the host operation is invoked; if
the address buffer is malformed in the same call, the Address Codec
error is reported instead, because decoding precedes the host call. -/
theorem bind_bound_state_error_when_decodable
    (host : Nat → TypedAddr → Nat) (socket : Nat) (addr : List Nat)
    (errno0 : Nat) (x : TypedAddr)
    (hok : sockaddr_to_wasi addr = .ok x) (he : host socket x ≠ 0) :
    Wasix.bind host socket addr errno0 = ⟨-1, host socket x, true⟩ := by
  unfold Wasix.bind
  rw [hok]
  simp [he]

theorem bind_bound_state_error_when_decodable_witness :
    Wasix.bind (fun _ _ => EALREADY) 5 [1, 0, 10, 0, 0, 2, 144, 31] 9
      = ⟨-1, EALREADY, true⟩ :=
  bind_bound_state_error_when_decodable (fun _ _ => EALREADY) 5
    [1, 0, 10, 0, 0, 2, 144, 31] 9 (.ip4 ⟨10, 0, 0, 2⟩ (144 + 256 * 31))
    rfl (by decide)

/-- C10: when `bind` returns 0 (success), the process-wide `errno`
slot is unchanged from its value before the call: `bind` writes
`errno` only on its failure paths. -/
theorem bind_success_errno_unchanged (host : Nat → TypedAddr → Nat)
    (socket : Nat) (addr : List Nat) (errno0 : Nat)
    (h : (Wasix.bind host socket addr errno0).ret = 0) :
    (Wasix.bind host socket addr errno0).errno = errno0 := by
  cases hok : sockaddr_to_wasi addr with
  | error e =>
    have hb : Wasix.bind host socket addr errno0 = ⟨-1, e, false⟩ := by
      unfold Wasix.bind
      rw [hok]
    rw [hb] at h
    simp at h
  | ok x =>
    by_cases he : host socket x = 0
    · have hb : Wasix.bind host socket addr errno0 = ⟨0, errno0, true⟩ := by
        unfold Wasix.bind
        rw [hok]
        simp [he]
      rw [hb]
    · have hb : Wasix.bind host socket addr errno0
          = ⟨-1, host socket x, true⟩ := by
        unfold Wasix.bind
        rw [hok]
        simp [he]
      rw [hb] at h
      simp at h

theorem bind_success_errno_unchanged_witness :
    (Wasix.bind (fun _ _ => 0) 3 [1, 0, 127, 0, 0, 1, 80, 0] 7).errno = 7 :=
  bind_success_errno_unchanged (fun _ _ => 0) 3
    [1, 0, 127, 0, 0, 1, 80, 0] 7 (by decide)

/-- C3: `bind` returns 0 on success and -1 on failure, and on every
failure path the published `errno` is one member of the standard errno
enumeration, granted that the host boundary only reports codes of the
closed enumeration. -/
theorem bind_sentinel_and_errno (host : Nat → TypedAddr → Nat)
    (socket : Nat) (addr : List Nat) (errno0 : Nat)
    (hhost : ∀ s a, host s a ≠ 0 → host s a ∈ standardErrnos) :
    ((Wasix.bind host socket addr errno0).ret = 0 ∨
      (Wasix.bind host socket addr errno0).ret = -1) ∧
    ((Wasix.bind host socket addr errno0).ret = -1 →
      (Wasix.bind host socket addr errno0).errno ∈ standardErrnos) := by
  cases hok : sockaddr_to_wasi addr with
  | error e =>
    have hb : Wasix.bind host socket addr errno0 = ⟨-1, e, false⟩ := by
      unfold Wasix.bind
      rw [hok]
    rw [hb]
    refine ⟨Or.inr rfl, fun _ => ?_⟩
    rcases sockaddr_to_wasi_error_cases addr e hok with h | h <;>
      subst h <;> decide
  | ok x =>
    by_cases he : host socket x = 0
    · have hb : Wasix.bind host socket addr errno0 = ⟨0, errno0, true⟩ := by
        unfold Wasix.bind
        rw [hok]
        simp [he]
      rw [hb]
      exact ⟨Or.inl rfl, fun h => by simp at h⟩
    · have hb : Wasix.bind host socket addr errno0
          = ⟨-1, host socket x, true⟩ := by
        unfold Wasix.bind
        rw [hok]
        simp [he]
      rw [hb]
      exact ⟨Or.inr rfl, fun _ => hhost socket x he⟩

theorem bind_sentinel_and_errno_witness :
    ((Wasix.bind (fun _ _ => 0) 3 [] 0).ret = 0 ∨
      (Wasix.bind (fun _ _ => 0) 3 [] 0).ret = -1) ∧
    ((Wasix.bind (fun _ _ => 0) 3 [] 0).ret = -1 →
      (Wasix.bind (fun _ _ => 0) 3 [] 0).errno ∈ standardErrnos) :=
  bind_sentinel_and_errno (fun _ _ => 0) 3 [] 0
    (fun _ _ h => absurd rfl h)

set_option maxRecDepth 8192 in
/-- C5: `to_errno` is a total function on the closed host error code
enumeration: every host error code maps to a member of the standard
errno enumeration, never to the no-error default 0, and the mapping is
injective, so no two codes are silently coerced to a common fallback
value. -/
theorem to_errno_total_nondefault :
    (∀ c : HostErrno, to_errno c ∈ standardErrnos ∧ to_errno c ≠ 0) ∧
    Function.Injective to_errno := by
  constructor
  · decide
  · decide

/-- C6: the address codec fails with the "invalid argument" error
`EINVAL` on any mismatch — declared length shorter than the header,
recognized family with a declared length that does not match the
family's required size, or unknown family tag — and fails with the
distinct "address family not supported" error `EAFNOSUPPORT` when the
family is the recognized-but-unsupported `AF_UNIX`; the two error
classes are never collapsed. -/
theorem decode_error_classes (buf : List Nat) :
    (buf.length < 2 → sockaddr_to_wasi buf = .error EINVAL) ∧
    (¬buf.length < 2 → familyTag buf = AF_INET →
      buf.length ≠ ip4SockaddrSize →
      sockaddr_to_wasi buf = .error EINVAL) ∧
    (¬buf.length < 2 → familyTag buf = AF_INET6 →
      buf.length ≠ ip6SockaddrSize →
      sockaddr_to_wasi buf = .error EINVAL) ∧
    (¬buf.length < 2 → familyTag buf ≠ AF_INET →
      familyTag buf ≠ AF_INET6 → familyTag buf ≠ AF_UNIX →
      sockaddr_to_wasi buf = .error EINVAL) ∧
    (¬buf.length < 2 → familyTag buf = AF_UNIX →
      sockaddr_to_wasi buf = .error EAFNOSUPPORT) ∧
    EINVAL ≠ EAFNOSUPPORT := by
  refine ⟨fun h => ?_, fun hl hf hn => ?_, fun hl hf hn => ?_,
    fun hl h1 h2 h3 => ?_, fun hl hf => ?_, by decide⟩
  · unfold sockaddr_to_wasi
    rw [if_pos h]
  · unfold sockaddr_to_wasi
    rw [if_neg hl, if_pos hf, if_neg hn]
  · unfold sockaddr_to_wasi
    rw [if_neg hl, if_neg (by rw [hf]; decide), if_pos hf, if_neg hn]
  · unfold sockaddr_to_wasi
    rw [if_neg hl, if_neg h1, if_neg h2, if_neg h3]
  · unfold sockaddr_to_wasi
    rw [if_neg hl, if_neg (by rw [hf]; decide),
      if_neg (by rw [hf]; decide), if_pos hf]

theorem decode_error_classes_witness :
    sockaddr_to_wasi [] = .error EINVAL ∧
    sockaddr_to_wasi [2, 0, 0, 0, 0, 0, 0, 0] = .error EINVAL ∧
    sockaddr_to_wasi [3, 0] = .error EAFNOSUPPORT ∧
    EINVAL ≠ EAFNOSUPPORT :=
  ⟨(decode_error_classes []).1 (by decide),
   (decode_error_classes [2, 0, 0, 0, 0, 0, 0, 0]).2.2.1 (by decide)
     (by decide) (by decide),
   (decode_error_classes [3, 0]).2.2.2.2.1 (by decide) (by decide),
   (decode_error_classes []).2.2.2.2.2⟩

/-- C7: the codec round-trips: for every valid IPv4 or IPv6 typed
address, when the caller buffer capacity is sufficient for the encoded
size, `encode` writes the full encoding without error and decoding
that encoding yields the original typed address back. -/
theorem codec_roundtrip (x : TypedAddr) (cap : Nat) (hv : x.valid)
    (hcap : requiredSize x ≤ cap) :
    encode x cap = .ok ⟨encodeFull x, requiredSize x⟩ ∧
    sockaddr_to_wasi (encodeFull x) = .ok x := by
  constructor
  · unfold encode
    rw [List.take_of_length_le hcap]
  · cases x with
    | ip4 a p =>
      obtain ⟨b0, b1, b2, b3⟩ := a
      obtain ⟨-, hp⟩ := hv
      have hd : sockaddr_to_wasi (encodeFull (.ip4 ⟨b0, b1, b2, b3⟩ p))
          = .ok (.ip4 ⟨b0, b1, b2, b3⟩ (p % 256 + 256 * (p / 256 % 256)))
        := rfl
      rw [hd]
      have : p % 256 + 256 * (p / 256 % 256) = p := by omega
      rw [this]
    | ip6 a p s =>
      obtain ⟨b0, b1, b2, b3, b4, b5, b6, b7,
        b8, b9, b10, b11, b12, b13, b14, b15⟩ := a
      obtain ⟨-, hp, hs⟩ := hv
      have hd : sockaddr_to_wasi (encodeFull
          (.ip6 ⟨b0, b1, b2, b3, b4, b5, b6, b7,
            b8, b9, b10, b11, b12, b13, b14, b15⟩ p s))
          = .ok (.ip6 ⟨b0, b1, b2, b3, b4, b5, b6, b7,
              b8, b9, b10, b11, b12, b13, b14, b15⟩
            (p % 256 + 256 * (p / 256 % 256))
            (s % 256 + 256 * (s / 256 % 256) + 65536 * (s / 65536 % 256)
              + 16777216 * (s / 16777216 % 256))) := rfl
      rw [hd]
      have hp2 : p % 256 + 256 * (p / 256 % 256) = p := by omega
      have hs2 : s % 256 + 256 * (s / 256 % 256) + 65536 * (s / 65536 % 256)
          + 16777216 * (s / 16777216 % 256) = s := by omega
      rw [hp2, hs2]

theorem codec_roundtrip_witness :
    encode (.ip4 ⟨127, 0, 0, 1⟩ 80) 16
      = .ok ⟨encodeFull (.ip4 ⟨127, 0, 0, 1⟩ 80),
          requiredSize (.ip4 ⟨127, 0, 0, 1⟩ 80)⟩ ∧
    sockaddr_to_wasi (encodeFull (.ip4 ⟨127, 0, 0, 1⟩ 80))
      = .ok (.ip4 ⟨127, 0, 0, 1⟩ 80) :=
  codec_roundtrip (.ip4 ⟨127, 0, 0, 1⟩ 80) 16 (by decide) (by decide)

/-- C8: when the caller buffer capacity is strictly smaller than the
required encoded size, `encode` writes exactly `capacity` bytes of the
correctly-prefixed encoding, reports the full untruncated required
size (which differs from the truncated size), and does not report
truncation as an error. -/
theorem encode_truncation (x : TypedAddr) (cap : Nat)
    (h : cap < requiredSize x) :
    encode x cap = .ok ⟨(encodeFull x).take cap, requiredSize x⟩ ∧
    ((encodeFull x).take cap).length = cap ∧
    requiredSize x ≠ cap := by
  refine ⟨rfl, ?_, by omega⟩
  rw [List.length_take]
  unfold requiredSize at h
  omega

theorem encode_truncation_witness :
    encode (.ip4 ⟨127, 0, 0, 1⟩ 80) 3
      = .ok ⟨(encodeFull (.ip4 ⟨127, 0, 0, 1⟩ 80)).take 3,
          requiredSize (.ip4 ⟨127, 0, 0, 1⟩ 80)⟩ ∧
    ((encodeFull (.ip4 ⟨127, 0, 0, 1⟩ 80)).take 3).length = 3 ∧
    requiredSize (.ip4 ⟨127, 0, 0, 1⟩ 80) ≠ 3 :=
  encode_truncation (.ip4 ⟨127, 0, 0, 1⟩ 80) 3 (by decide)

/-- C9: `acquire_all` acquires the locks of the fixed registry in
forward registry order, and `release_all` releases them in the exact
reverse of that order (its trace is the reverse of the acquire trace);
after the acquire/release pair no registry lock remains held. -/
theorem lock_registry_order :
    ((acquire_all ⟨[]⟩).2.map LockEvent.lock = lockRegistry) ∧
    ((release_all (acquire_all ⟨[]⟩).1).2.map LockEvent.lock
      = lockRegistry.reverse) ∧
    ((release_all (acquire_all ⟨[]⟩).1).2.map LockEvent.lock
      = ((acquire_all ⟨[]⟩).2.map LockEvent.lock).reverse) ∧
    (release_all (acquire_all ⟨[]⟩).1).1.held = [] := by
  decide
